import Mathlib

/-!
Shallow embedding of the forecasting core of this repository
(`src/series/Forecasting.py` and `src/series/CNNLSTM.py`).

Series are embedded as Lean lists over a division ring (instantiated at `ℚ`
for concrete evaluations; the generator component, which needs `cos`/`exp`,
is embedded over `ℝ`).  Python slices `s[a:b]` become `(s.take b).drop a`,
numpy elementwise arithmetic on equal-length arrays becomes `List.zipWith`,
and `numpy.mean` of a slice becomes its sum divided by its length.
-/

namespace Series

/-- `moving_average_forecast(series, window_size)` from `Forecasting.py`:
for each `time` in `range(len(series) - window_size)` it appends
`series[time:time + window_size].mean()`. -/
def moving_average_forecast {α : Type} [DivisionRing α]
    (series : List α) (window_size : ℕ) : List α :=
  (List.range (series.length - window_size)).map
    (fun time => ((series.drop time).take window_size).sum / (window_size : α))

/-- The script line `naive_forecast = series[split_time - 1:-1]` from
`Forecasting.py`, as a function of the series and the split point.
Faithful to the Python slice for `1 ≤ split_time` (a split of `0` would make
the Python slice start at the negative index `-1`). -/
def naive_forecast {α : Type} (series : List α) (split_time : ℕ) : List α :=
  (series.take (series.length - 1)).drop (split_time - 1)

/-- The script line `diff_series = (series[365:] - series[:-365])` from
`Forecasting.py`, generalised over the period as the spec does:
elementwise difference of the series shifted by `period` against its
first `len - period` values. -/
def diff_series {α : Type} [Sub α] (series : List α) (period : ℕ) : List α :=
  List.zipWith (· - ·) (series.drop period)
    (series.take (series.length - period))

/-- The script line
`diff_moving_avg = moving_average_forecast(diff_series, 50)[split_time - 365 - 50:]`
from `Forecasting.py` with the script constants `split_time = 1000`,
period `365`, secondary window `50`. -/
def diff_moving_avg {α : Type} [DivisionRing α] (series : List α) : List α :=
  (moving_average_forecast (diff_series series 365) 50).drop (1000 - 365 - 50)

/-- The script line
`diff_moving_avg_plus_past = series[split_time - 365:-365] + diff_moving_avg`
from `Forecasting.py` (`split_time = 1000`): the lagged slice
`series[635 : len - 365]` added elementwise to `diff_moving_avg`. -/
def diff_moving_avg_plus_past {α : Type} [DivisionRing α] (series : List α) :
    List α :=
  List.zipWith (· + ·)
    ((series.take (series.length - 365)).drop (1000 - 365))
    (diff_moving_avg series)

/-! ### Basic shape and indexing lemmas for the list pipeline -/

theorem moving_average_forecast_length {α : Type} [DivisionRing α]
    (series : List α) (window_size : ℕ) :
    (moving_average_forecast series window_size).length =
      series.length - window_size := by
  simp [moving_average_forecast]

theorem moving_average_forecast_getD {α : Type} [DivisionRing α]
    (series : List α) (window_size i : ℕ)
    (hi : i < series.length - window_size) :
    (moving_average_forecast series window_size).getD i 0 =
      ((series.drop i).take window_size).sum / (window_size : α) := by
  have hlen : i < (moving_average_forecast series window_size).length := by
    rwa [moving_average_forecast_length]
  rw [List.getD_eq_getElem _ _ hlen]
  simp [moving_average_forecast]

/-- A length-`n` slice of `s` starting at `m`, written with `take`/`drop`,
enumerated by positions: its entries are `s.getD (m + k) d` for `k < n`. -/
theorem slice_eq_map_getD {α : Type} (s : List α) (d : α) (m n : ℕ)
    (h : m + n ≤ s.length) :
    (s.drop m).take n = (List.range n).map (fun k => s.getD (m + k) d) := by
  apply List.ext_getElem
  · simp [List.length_take, List.length_drop]
    omega
  · intro i h1 h2
    have hms : m + i < s.length := by
      simp at h2; omega
    simp [List.getElem_take, List.getElem_drop, List.getD,
      List.getElem?_eq_getElem hms]

theorem diff_series_length {α : Type} [Sub α] (series : List α) (period : ℕ) :
    (diff_series series period).length = series.length - period := by
  simp [diff_series, List.length_zipWith]

theorem diff_series_getD (series : List ℚ) (period j : ℕ)
    (hj : j < series.length - period) :
    (diff_series series period).getD j 0 =
      series.getD (period + j) 0 - series.getD j 0 := by
  have hlen : j < (diff_series series period).length := by
    rwa [diff_series_length]
  have hpj : period + j < series.length := by omega
  have hjs : j < series.length := by omega
  rw [List.getD_eq_getElem _ _ hlen]
  simp [diff_series, List.getElem_zipWith, List.getElem_take, List.getElem_drop,
    List.getD, List.getElem?_eq_getElem hpj, List.getElem?_eq_getElem hjs]

/-- **C1**: for every series of length `N` and window `w` with `0 < w`,
the moving-average forecast has exactly `N - w` entries, entry `i` being the
mean of `series[i : i+w]`, and `w ≥ N` yields the empty result. -/
theorem moving_average_forecast_spec (s : List ℚ) (w : ℕ) (hw : 0 < w) :
    (moving_average_forecast s w).length = s.length - w ∧
    (∀ i, i < s.length - w →
      (moving_average_forecast s w).getD i 0 =
        ((List.range w).map (fun k => s.getD (i + k) 0)).sum / (w : ℚ)) ∧
    (s.length ≤ w → moving_average_forecast s w = []) := by
  refine ⟨moving_average_forecast_length s w, ?_, ?_⟩
  · intro i hi
    rw [moving_average_forecast_getD s w i hi,
      slice_eq_map_getD s 0 i w (by omega)]
  · intro hle
    have h0 : s.length - w = 0 := by omega
    simp [moving_average_forecast, h0]

/-- Witness for C1: the spec's concrete scenario, series `[0,…,9]` and
window `3`, gives `[1,…,7]`, and the general theorem instantiates there. -/
theorem moving_average_forecast_spec_witness :
    moving_average_forecast [(0 : ℚ), 1, 2, 3, 4, 5, 6, 7, 8, 9] 3 =
      [1, 2, 3, 4, 5, 6, 7] ∧
    (moving_average_forecast [(0 : ℚ), 1, 2, 3, 4, 5, 6, 7, 8, 9] 3).length =
      [(0 : ℚ), 1, 2, 3, 4, 5, 6, 7, 8, 9].length - 3 :=
  ⟨by norm_num [moving_average_forecast, List.range_succ],
    (moving_average_forecast_spec [(0 : ℚ), 1, 2, 3, 4, 5, 6, 7, 8, 9] 3
      (by norm_num)).1⟩

/-- **C4**: for `0 < split < T` the naive forecast has length `T - split`,
entry `i` equal to `series[split - 1 + i]`, and first entry
`series[split - 1]`. -/
theorem naive_forecast_spec (s : List ℚ) (split : ℕ) (h1 : 0 < split)
    (h2 : split < s.length) :
    (naive_forecast s split).length = s.length - split ∧
    (∀ i, i < s.length - split →
      (naive_forecast s split).getD i 0 = s.getD (split - 1 + i) 0) ∧
    (naive_forecast s split).getD 0 0 = s.getD (split - 1) 0 := by
  have hlen : (naive_forecast s split).length = s.length - split := by
    simp [naive_forecast, List.length_take]
    omega
  have hent : ∀ i, i < s.length - split →
      (naive_forecast s split).getD i 0 = s.getD (split - 1 + i) 0 := by
    intro i hi
    have hb : i < (naive_forecast s split).length := by omega
    have hsi : split - 1 + i < s.length := by omega
    rw [List.getD_eq_getElem _ _ hb, List.getD_eq_getElem _ _ hsi]
    simp [naive_forecast, List.getElem_drop, List.getElem_take]
  refine ⟨hlen, hent, ?_⟩
  have h0 := hent 0 (by omega)
  simpa using h0

/-- Witness for C4: series `[10,11,12,13,14]`, split `3`, entry `1`. -/
theorem naive_forecast_spec_witness :
    (naive_forecast [(10 : ℚ), 11, 12, 13, 14] 3).length =
      [(10 : ℚ), 11, 12, 13, 14].length - 3 ∧
    (naive_forecast [(10 : ℚ), 11, 12, 13, 14] 3).getD 1 0 =
      [(10 : ℚ), 11, 12, 13, 14].getD (3 - 1 + 1) 0 ∧
    (naive_forecast [(10 : ℚ), 11, 12, 13, 14] 3).getD 0 0 =
      [(10 : ℚ), 11, 12, 13, 14].getD (3 - 1) 0 :=
  ⟨(naive_forecast_spec [(10 : ℚ), 11, 12, 13, 14] 3 (by norm_num)
      (by norm_num)).1,
    (naive_forecast_spec [(10 : ℚ), 11, 12, 13, 14] 3 (by norm_num)
      (by norm_num)).2.1 1 (by norm_num),
    (naive_forecast_spec [(10 : ℚ), 11, 12, 13, 14] 3 (by norm_num)
      (by norm_num)).2.2⟩

/-- **C5**: the differenced series satisfies the exact round-trip identity
`diff_series[t - p] + series[t - p] = series[t]` for `p ≤ t < len`. -/
theorem diff_series_roundtrip (s : List ℚ) (p : ℕ) (hp : 0 < p)
    (hple : p ≤ s.length) :
    ∀ t, p ≤ t → t < s.length →
      (diff_series s p).getD (t - p) 0 + s.getD (t - p) 0 = s.getD t 0 := by
  intro t hpt hts
  rw [diff_series_getD s p (t - p) (by omega)]
  have hpt' : p + (t - p) = t := by omega
  rw [hpt']
  ring

/-- Witness for C5: series `[1,5,2,7]`, period `2`, `t = 3`. -/
theorem diff_series_roundtrip_witness :
    (diff_series [(1 : ℚ), 5, 2, 7] 2).getD (3 - 2) 0 +
      [(1 : ℚ), 5, 2, 7].getD (3 - 2) 0 = [(1 : ℚ), 5, 2, 7].getD 3 0 :=
  diff_series_roundtrip [(1 : ℚ), 5, 2, 7] 2 (by norm_num) (by norm_num)
    3 (by norm_num) (by norm_num)

/-- **C3 counterexample**: no invalid-argument error is raised.  The naive
forecast with a split point far outside `(0, T)` returns the empty list, and
the moving-average forecast with window size `0` returns an ordinary
length-`3` result (an array of `nan`s in numpy, junk values here) — both
calls produce values instead of failing. -/
theorem no_invalid_argument_error_counterexample :
    naive_forecast [(1 : ℚ), 2, 3] 10 = [] ∧
    (moving_average_forecast [(1 : ℚ), 2, 3] 0).length = 3 := by
  constructor
  · rfl
  · rw [moving_average_forecast_length]
    rfl

/-- **C3 amended**: the source performs no precondition validation — the
baseline forecasters are total straight-line code. The moving-average
forecast returns a (possibly empty) list of length `len - w` for *every*
window size, including `0` and `w ≥ len`, and the naive forecast with a
split point at or beyond the series length returns the empty list; no
error path exists. -/
theorem no_precondition_validation (s : List ℚ) (w split_time : ℕ)
    (hsplit : s.length ≤ split_time) :
    (moving_average_forecast s w).length = s.length - w ∧
    naive_forecast s split_time = [] := by
  refine ⟨moving_average_forecast_length s w, ?_⟩
  apply List.drop_eq_nil_of_le
  simp [List.length_take]
  omega

/-- Witness for C3 amended: series `[1,2,3]`, window `2`, split `5`. -/
theorem no_precondition_validation_witness :
    (moving_average_forecast [(1 : ℚ), 2, 3] 2).length =
      [(1 : ℚ), 2, 3].length - 2 ∧
    naive_forecast [(1 : ℚ), 2, 3] 5 = [] :=
  no_precondition_validation [(1 : ℚ), 2, 3] 2 5 (by norm_num)

/-- With window size `1` each forecast entry is the mean of a single
element, so the moving-average forecast is the series without its last
element. -/
theorem moving_average_forecast_one (s : List ℚ) :
    moving_average_forecast s 1 = s.take (s.length - 1) := by
  apply List.ext_getElem
  · simp [moving_average_forecast_length, List.length_take]
  · intro i h1 h2
    have hi : i < s.length - 1 := by
      rwa [moving_average_forecast_length] at h1
    have his : i < s.length := by omega
    simp only [moving_average_forecast, List.getElem_map, List.getElem_range]
    rw [slice_eq_map_getD s 0 i 1 (by omega)]
    simp [List.getD, List.getElem?_eq_getElem his, List.getElem_take,
      List.range_succ]

/-- **C7**: the moving-average forecast with window size `1` is the
identity on valid window starts, and its suffix from `split - 1`, truncated
to `T - split` values, coincides with the naive forecast. -/
theorem moving_average_one_naive (s : List ℚ) (split : ℕ) (h1 : 0 < split)
    (h2 : split < s.length) :
    (∀ i, i < s.length - 1 →
      (moving_average_forecast s 1).getD i 0 = s.getD i 0) ∧
    ((moving_average_forecast s 1).drop (split - 1)).take
        (s.length - split) = naive_forecast s split := by
  constructor
  · intro i hi
    rw [moving_average_forecast_one]
    have hb : i < (s.take (s.length - 1)).length := by
      simp [List.length_take]; omega
    rw [List.getD_eq_getElem _ _ hb,
      List.getD_eq_getElem _ _ (show i < s.length by omega)]
    simp [List.getElem_take]
  · rw [moving_average_forecast_one]
    apply List.take_of_length_le
    simp [List.length_take, List.length_drop]
    omega

/-- Witness for C7: series `[4,5,6,7]`, split `2`, entry `2`. -/
theorem moving_average_one_naive_witness :
    (moving_average_forecast [(4 : ℚ), 5, 6, 7] 1).getD 2 0 =
      [(4 : ℚ), 5, 6, 7].getD 2 0 ∧
    ((moving_average_forecast [(4 : ℚ), 5, 6, 7] 1).drop (2 - 1)).take
        ([(4 : ℚ), 5, 6, 7].length - 2) =
      naive_forecast [(4 : ℚ), 5, 6, 7] 2 :=
  ⟨(moving_average_one_naive [(4 : ℚ), 5, 6, 7] 2 (by norm_num)
      (by norm_num)).1 2 (by norm_num),
    (moving_average_one_naive [(4 : ℚ), 5, 6, 7] 2 (by norm_num)
      (by norm_num)).2⟩

/-! ### Alignment of the differenced moving-average reconstruction (C2) -/

theorem getD_drop (l : List ℚ) (m i : ℕ) (h : m + i < l.length) :
    (l.drop m).getD i 0 = l.getD (m + i) 0 := by
  have hb : i < (l.drop m).length := by
    simp [List.length_drop]; omega
  rw [List.getD_eq_getElem _ _ hb, List.getD_eq_getElem _ _ h]
  simp [List.getElem_drop]

theorem getD_take (l : List ℚ) (n i : ℕ) (h1 : i < n) (h2 : i < l.length) :
    (l.take n).getD i 0 = l.getD i 0 := by
  have hb : i < (l.take n).length := by
    simp [List.length_take]; omega
  rw [List.getD_eq_getElem _ _ hb, List.getD_eq_getElem _ _ h2]
  simp [List.getElem_take]

theorem getD_zipWith_add (a b : List ℚ) (i : ℕ)
    (ha : i < a.length) (hb : i < b.length) :
    (List.zipWith (· + ·) a b).getD i 0 = a.getD i 0 + b.getD i 0 := by
  have hz : i < (List.zipWith (· + ·) a b).length := by
    simp [List.length_zipWith]; omega
  rw [List.getD_eq_getElem _ _ hz, List.getD_eq_getElem _ _ ha,
    List.getD_eq_getElem _ _ hb]
  simp [List.getElem_zipWith]

theorem diff_moving_avg_length (s : List ℚ) (h : s.length = 1461) :
    (diff_moving_avg s).length = 461 := by
  simp [diff_moving_avg, moving_average_forecast_length, diff_series_length, h]

theorem diff_moving_avg_getD (s : List ℚ) (h : s.length = 1461)
    (i : ℕ) (hi : i < 461) :
    (diff_moving_avg s).getD i 0 =
      ((List.range 50).map
        (fun k => (diff_series s 365).getD (585 + i + k) 0)).sum / (50 : ℚ) := by
  have hd : (diff_series s 365).length = 1096 := by
    rw [diff_series_length, h]
  have hm : (moving_average_forecast (diff_series s 365) 50).length = 1046 := by
    rw [moving_average_forecast_length, hd]
  rw [diff_moving_avg, getD_drop _ _ _ (by omega),
    moving_average_forecast_getD _ _ _ (by omega),
    slice_eq_map_getD (diff_series s 365) 0 (1000 - 365 - 50 + i) 50 (by omega)]
  norm_num

/-- **C2**: for the concrete run (`T = 1461`, `split = 1000`, period `365`,
secondary window `50`), `diff_moving_avg_plus_past` has length `T - split`,
and its value at validation index `i` is the observation one period before
the forecast time, `series[(split + i) - 365]`, plus the mean of the `50`
period-differences `series[t] - series[t - 365]` for the times `t` in
`[split + i - 50, split + i)` immediately preceding the forecast time. -/
theorem diff_moving_avg_plus_past_spec (s : List ℚ) (h : s.length = 1461) :
    (diff_moving_avg_plus_past s).length = 1461 - 1000 ∧
    ∀ i, i < 1461 - 1000 →
      (diff_moving_avg_plus_past s).getD i 0 =
        s.getD (1000 + i - 365) 0 +
          ((List.range 50).map (fun k =>
            s.getD (1000 + i - 50 + k) 0 -
              s.getD (1000 + i - 50 + k - 365) 0)).sum / (50 : ℚ) := by
  have hpast : ((s.take (s.length - 365)).drop (1000 - 365)).length = 461 := by
    simp [List.length_take, List.length_drop, h]
  constructor
  · simp only [diff_moving_avg_plus_past, List.length_zipWith, hpast,
      diff_moving_avg_length s h]
    omega
  · intro i hi
    have hi461 : i < 461 := by omega
    have htake : (s.take (s.length - 365)).length = 1096 := by
      simp [List.length_take, h]
    have h1 : (diff_moving_avg_plus_past s).getD i 0 =
        ((s.take (s.length - 365)).drop (1000 - 365)).getD i 0 +
          (diff_moving_avg s).getD i 0 := by
      rw [diff_moving_avg_plus_past]
      exact getD_zipWith_add _ _ i (by rw [hpast]; omega)
        (by rw [diff_moving_avg_length s h]; omega)
    have h2 : ((s.take (s.length - 365)).drop (1000 - 365)).getD i 0 =
        s.getD (1000 - 365 + i) 0 := by
      rw [getD_drop _ _ _ (by rw [htake]; omega)]
      exact getD_take _ _ _ (by omega) (by omega)
    have e1 : 1000 + i - 365 = 1000 - 365 + i := by omega
    have hmap : ∀ k ∈ List.range 50,
        s.getD (1000 + i - 50 + k) 0 - s.getD (1000 + i - 50 + k - 365) 0 =
          (diff_series s 365).getD (585 + i + k) 0 := by
      intro k hk
      have hk50 : k < 50 := List.mem_range.mp hk
      rw [diff_series_getD s 365 (585 + i + k) (by omega)]
      have e2 : 1000 + i - 50 + k = 365 + (585 + i + k) := by omega
      have e3 : 1000 + i - 50 + k - 365 = 585 + i + k := by omega
      rw [e3, e2]
    rw [h1, h2, diff_moving_avg_getD s h i hi461, e1,
      List.map_congr_left hmap]

/-- Witness for C2: the all-zero series of length `1461`, checked at
validation index `7`. -/
theorem diff_moving_avg_plus_past_spec_witness :
    (diff_moving_avg_plus_past (List.replicate 1461 (0 : ℚ))).length =
      1461 - 1000 ∧
    (diff_moving_avg_plus_past (List.replicate 1461 (0 : ℚ))).getD 7 0 =
      (List.replicate 1461 (0 : ℚ)).getD (1000 + 7 - 365) 0 +
        ((List.range 50).map (fun k =>
          (List.replicate 1461 (0 : ℚ)).getD (1000 + 7 - 50 + k) 0 -
            (List.replicate 1461 (0 : ℚ)).getD (1000 + 7 - 50 + k - 365) 0)).sum
          / (50 : ℚ) :=
  ⟨(diff_moving_avg_plus_past_spec (List.replicate 1461 (0 : ℚ))
      (by rw [List.length_replicate])).1,
    (diff_moving_avg_plus_past_spec (List.replicate 1461 (0 : ℚ))
      (by rw [List.length_replicate])).2 7 (by norm_num)⟩

/-! ### Supervised windowing (`windowed_dataset`, `src/series/CNNLSTM.py`) -/

/-- The `tf.data` stage
`window(size, shift=1, drop_remainder=True)` followed by
`flat_map(lambda window: window.batch(size))` from `CNNLSTM.py`: the list of
all full-length slices `series[j : j+size]`, advancing with stride 1 and
dropping any partial trailing window. -/
def dataset_windows {α : Type} (series : List α) (size : ℕ) :
    List (List α) :=
  (List.range (series.length + 1 - size)).map
    (fun j => (series.drop j).take size)

/-- `windowed_dataset(series, window_size, batch_size, shuffle_buffer)` from
`CNNLSTM.py`, up to (but not including) the final `batch(batch_size)` and
`prefetch(1)` stages, which only regroup the same pairs.  The
`dataset.shuffle(shuffle_buffer)` stage is modelled from the spec as a
caller-supplied permutation `shuffleFn` applied at window granularity; the
`map` stage sends each window to `(window[:-1], window[1:])`. -/
def windowed_dataset {α : Type}
    (shuffleFn : List (List α) → List (List α)) (series : List α)
    (window_size : ℕ) : List (List α × List α) :=
  (shuffleFn (dataset_windows series (window_size + 1))).map
    (fun window => (window.take (window.length - 1), window.drop 1))

/-- **C9**: the supervised windowing emits, up to the shuffle permutation,
exactly the pairs `(series[j : j+w], series[j+1 : j+w+1])` for every start
`j` of a full `w+1`-length slice, with stride 1 and no partial trailing
window. -/
theorem windowed_dataset_spec (s : List ℚ) (w : ℕ)
    (shuffleFn : List (List ℚ) → List (List ℚ))
    (hperm : ∀ l, (shuffleFn l).Perm l) :
    (windowed_dataset shuffleFn s w).Perm
      ((List.range (s.length - w)).map
        (fun j => ((s.drop j).take w, (s.drop (j + 1)).take w))) := by
  have hp : (windowed_dataset shuffleFn s w).Perm
      ((dataset_windows s (w + 1)).map
        (fun window => (window.take (window.length - 1), window.drop 1))) :=
    (hperm (dataset_windows s (w + 1))).map _
  refine hp.trans (List.Perm.of_eq ?_)
  rw [dataset_windows, List.map_map]
  have hcount : s.length + 1 - (w + 1) = s.length - w := by omega
  rw [hcount]
  apply List.map_congr_left
  intro j hj
  have hjlt : j < s.length - w := List.mem_range.mp hj
  have hlen : ((s.drop j).take (w + 1)).length = w + 1 := by
    simp [List.length_take, List.length_drop]
    omega
  simp only [Function.comp_apply, hlen]
  rw [Prod.mk.injEq]
  constructor
  · rw [List.take_take]
    congr 1
    omega
  · rw [List.drop_take, List.drop_drop]
    norm_num

/-- Witness for C9: series `[3,1,4,1,5]`, window size `2`, identity
shuffle. -/
theorem windowed_dataset_spec_witness :
    (windowed_dataset id [(3 : ℚ), 1, 4, 1, 5] 2).Perm
      ((List.range ([(3 : ℚ), 1, 4, 1, 5].length - 2)).map
        (fun j => (([(3 : ℚ), 1, 4, 1, 5].drop j).take 2,
          ([(3 : ℚ), 1, 4, 1, 5].drop (j + 1)).take 2))) :=
  windowed_dataset_spec [(3 : ℚ), 1, 4, 1, 5] 2 id
    (fun l => List.Perm.refl l)

/-! ### Signal generator (`trend`, `seasonal_pattern`, `seasonality`, `noise`)

These functions are identical in `Forecasting.py` and `CNNLSTM.py`.  Numpy
float arrays over the time axis `np.arange(T)` are embedded as lists of `ℝ`
indexed by the integer tick. -/

/-- `trend(time, slope) = slope * time`, at tick `t`. -/
noncomputable def trend (t : ℕ) (slope : ℝ) : ℝ := slope * t

/-- `seasonal_pattern(season_time)`:
`np.where(season_time < 0.4, np.cos(season_time * 2 * np.pi), 1 / np.exp(3 * season_time))`. -/
noncomputable def seasonal_pattern (season_time : ℝ) : ℝ :=
  if season_time < 0.4 then Real.cos (season_time * 2 * Real.pi)
  else 1 / Real.exp (3 * season_time)

/-- `seasonality(time, period, amplitude, phase)`:
`amplitude * seasonal_pattern(((time + phase) % period) / period)`, at
integer tick `t` with the scripts' integer period and phase. -/
noncomputable def seasonality (t period : ℕ) (amplitude : ℝ) (phase : ℕ) :
    ℝ :=
  amplitude *
    seasonal_pattern ((((t + phase) % period : ℕ) : ℝ) / (period : ℝ))

/-- Modelled from the spec: `np.random.RandomState(seed)` and its `randn`
draws (the generator itself is library code, not part of this repository;
the spec leaves the algorithm unspecified beyond "seeded standard-normal
generator", so the embedding is parameterised by an abstract deterministic
model).  `newRandomState` builds a fresh local generator from a seed,
`randn g n` returns the `n` draws of generator `g` with the advanced
generator, and `randn_length` records that `randn` yields exactly `n`
values ("draws `len(t)` values").  `GlobalState`/`globalRandn` model the
process-wide generator that the global `np.random` API would read and
advance. -/
structure RandModel where
  Gen : Type
  GlobalState : Type
  newRandomState : ℕ → Gen
  randn : Gen → ℕ → List ℝ × Gen
  globalRandn : GlobalState → ℕ → List ℝ × GlobalState
  randn_length : ∀ g n, (randn g n).1.length = n

/-- `noise(time, noise_level, seed)` from both scripts:
`rnd = np.random.RandomState(seed)` then `rnd.randn(len(time)) * noise_level`
— the returned value. -/
noncomputable def noise (M : RandModel) (timeLen : ℕ) (noise_level : ℝ)
    (seed : ℕ) : List ℝ :=
  (M.randn (M.newRandomState seed) timeLen).1.map (fun x => x * noise_level)

/-- The same `noise` call embedded with explicit threading of the
process-wide generator state (the state that a call into the global
`np.random` API would read and advance): the body builds its own local
`RandomState(seed)`, draws from it, and leaves the global state alone. -/
noncomputable def noise_run (M : RandModel) (timeLen : ℕ) (noise_level : ℝ)
    (seed : ℕ) (g : M.GlobalState) : List ℝ × M.GlobalState :=
  let rnd := M.newRandomState seed
  let draws := (M.randn rnd timeLen).1
  (draws.map (fun x => x * noise_level), g)

/-- The series construction from the `__main__` blocks of both scripts:
`series = baseline + trend(time, slope) + seasonality(time, period, amplitude)`
followed by `series += noise(time, noise_level, seed)`, over the time axis
`np.arange(T)` (seasonality at its default phase `0`). -/
noncomputable def generated_series (M : RandModel) (T : ℕ)
    (baseline slope : ℝ) (period : ℕ) (amplitude noise_level : ℝ)
    (seed : ℕ) : List ℝ :=
  List.zipWith (· + ·)
    ((List.range T).map
      (fun t => baseline + trend t slope + seasonality t period amplitude 0))
    (noise M T noise_level seed)

/-- A concrete instance of the abstract PRNG model, used to instantiate the
generator theorems: every draw is `0` and the generator state is a counter
advanced by the number of draws. -/
noncomputable def zeroRandModel : RandModel where
  Gen := ℕ
  GlobalState := ℕ
  newRandomState := fun seed => seed
  randn := fun g n => (List.replicate n 0, g + n)
  globalRandn := fun g n => (List.replicate n 0, g + n)
  randn_length := fun _ n => List.length_replicate n 0

/-- **C6**: with noise level `0` the generated series equals, elementwise
and exactly, `baseline + slope*t + amplitude*seasonal_pattern((t mod period)/period)`
with the spec's piecewise pattern — `cos(2π·x)` for `x < 0.4` and
`exp(-3·x)` otherwise — computed independently (the generator runs at
phase `0`). -/
theorem generated_series_noiseless (M : RandModel) (T : ℕ)
    (baseline slope : ℝ) (period : ℕ) (amplitude : ℝ) (seed : ℕ)
    (hT : 0 < T) (hper : 0 < period) :
    generated_series M T baseline slope period amplitude 0 seed =
      (List.range T).map (fun t =>
        baseline + slope * t +
          amplitude *
            (if (((t % period : ℕ) : ℝ) / (period : ℝ)) < 0.4 then
              Real.cos (2 * Real.pi * (((t % period : ℕ) : ℝ) / (period : ℝ)))
            else
              Real.exp (-(3 * (((t % period : ℕ) : ℝ) / (period : ℝ)))))) := by
  have hnlen : (noise M T 0 seed).length = T := by
    simp [noise, M.randn_length]
  apply List.ext_getElem
  · simp [generated_series, List.length_zipWith, hnlen]
  · intro i h1 h2
    have hiT : i < T := by
      simpa using h2
    have hin : i < (noise M T 0 seed).length := by omega
    have hid : i < (M.randn (M.newRandomState seed) T).1.length := by
      rw [M.randn_length]; exact hiT
    simp only [generated_series, List.getElem_zipWith, List.getElem_map,
      List.getElem_range, noise, mul_zero, add_zero]
    rw [trend, seasonality, Nat.add_zero, seasonal_pattern]
    split_ifs with hx
    · have harg : (((i % period : ℕ) : ℝ) / (period : ℝ)) * 2 * Real.pi =
          2 * Real.pi * (((i % period : ℕ) : ℝ) / (period : ℝ)) := by ring
      rw [harg]
    · rw [Real.exp_neg, one_div]

/-- Witness for C6: the zero-draw model, `T = 1`, baseline `10`,
slope `5`, period `1`, amplitude `40`, seed `42`. -/
theorem generated_series_noiseless_witness :
    generated_series zeroRandModel 1 10 5 1 40 0 42 =
      (List.range 1).map (fun t =>
        10 + 5 * t +
          40 *
            (if (((t % 1 : ℕ) : ℝ) / ((1 : ℕ) : ℝ)) < 0.4 then
              Real.cos (2 * Real.pi * (((t % 1 : ℕ) : ℝ) / ((1 : ℕ) : ℝ)))
            else
              Real.exp (-(3 * (((t % 1 : ℕ) : ℝ) / ((1 : ℕ) : ℝ)))))) :=
  generated_series_noiseless zeroRandModel 1 10 5 1 40 42 (by norm_num)
    (by norm_num)

/-- **C8**: `noise` is deterministic in its seed: two consecutive calls
with the same seed — the second starting from whatever global generator
state the first left behind — return identical sequences of length
`len(time)`. -/
theorem noise_deterministic (M : RandModel) (n : ℕ) (level : ℝ) (seed : ℕ)
    (g : M.GlobalState) :
    (noise_run M n level seed g).1 =
      (noise_run M n level seed (noise_run M n level seed g).2).1 ∧
    (noise_run M n level seed g).1.length = n := by
  refine ⟨rfl, ?_⟩
  simp [noise_run, M.randn_length]

/-- **C10**: `noise` builds its own local generator from the given seed and
never touches the process-wide one: the global state comes back unchanged,
the result is independent of the incoming global state, and it agrees with
the pure value of the call. -/
theorem noise_frame (M : RandModel) (n : ℕ) (level : ℝ) (seed : ℕ)
    (g g' : M.GlobalState) :
    (noise_run M n level seed g).2 = g ∧
    (noise_run M n level seed g).1 = (noise_run M n level seed g').1 ∧
    (noise_run M n level seed g).1 = noise M n level seed :=
  ⟨rfl, rfl, rfl⟩

end Series
